import Mathlib

attribute [local semireducible] Rat.add Rat.mul Rat.sub Rat.inv Rat.ofScientific

/-!
Verification development for the best-w-plane accessor adapter
(`askap/dataaccess/BestWPlaneDataAccessor.cc`).

The adapter fits a plane w = A*u + B*v through the (u,v,w) coordinates of a
visibility chunk and corrects the w coordinate to be the distance from that
plane.  The C++ code works on `double`; the embedding models the arithmetic
exactly over `ℚ` so that fit recovery and tolerance comparisons can be settled
exactly.  Mutable members of the C++ class become explicit state records that
the embedded functions take and return.
-/

/-- One (u,v,w) coordinate triple, one row of a chunk
(`casacore::RigidVector<casacore::Double,3>` in the source). -/
structure UVW where
  u : ℚ
  v : ℚ
  w : ℚ
deriving DecidableEq

/-- A tangent point (`casacore::MDirection` in the source), reduced to the two
angles the adapter manipulates: the predictive policy shifts the longitude,
and tangent points are compared component-wise for near-equality. -/
structure TangentPoint where
  lon : ℚ
  lat : ℚ
deriving DecidableEq

/-- `MDirection::shiftLongitude`: add an angle to the longitude. -/
def shiftLongitude (tp : TangentPoint) (angle : ℚ) : TangentPoint :=
  { tp with lon := tp.lon + angle }

/-- Modelled from the spec: `UVWMachineCache::compare` (its source is not part
of this repository's files) decides whether two directions are the same within
a small angular tolerance; the call site uses tolerance `1e-6`.  Following the
spec's "compared by near-equality (small angular tolerance), not exact
equality", we compare both angles within `1e-6`. -/
def compareDirections (a b : TangentPoint) : Bool :=
  decide (|a.lon - b.lon| ≤ 1 / 1000000) && decide (|a.lat - b.lat| ≤ 1 / 1000000)

/-- The mutable plane-fit part of the adapter state: `itsCoeffA`, `itsCoeffB`
and the plane change monitor `itsPlaneChangeMonitor`, modelled as a counter
that `notifyOfChanges()` increments (the spec's monotonically increasing
`planeEpoch`). -/
structure PlaneFitState where
  coeffA : ℚ
  coeffB : ℚ
  planeEpoch : ℕ
deriving DecidableEq

/-- The five accumulated sums of the least-squares problem for w = A*u + B*v
(`su2, sv2, suv, suw, svw` in the source). -/
structure LSFSums where
  su2 : ℚ
  sv2 : ℚ
  suv : ℚ
  suw : ℚ
  svw : ℚ
deriving DecidableEq

/-- One loop iteration of the sum accumulation (lines 395-403 / 234-242 /
325-333 of the source). -/
def lsfAccum (s : LSFSums) (r : UVW) : LSFSums :=
  { su2 := s.su2 + r.u * r.u
    sv2 := s.sv2 + r.v * r.v
    suv := s.suv + r.u * r.v
    suw := s.suw + r.u * r.w
    svw := s.svw + r.v * r.w }

/-- Accumulate the least-squares sums over a whole uvw vector. -/
def lsfSums (uvw : List UVW) : LSFSums :=
  List.foldl lsfAccum ⟨0, 0, 0, 0, 0⟩ uvw

/-- Accumulate the least-squares sums reading rows `0..n-1` of `uvw`.  The
source loops at lines 325-333 run the row index over `uvw.nelements()` of the
*original* chunk while indexing the advanced-time vector, so the bound is
passed separately; out-of-range reads yield the zero triple. -/
def lsfSumsRange (uvw : List UVW) (n : ℕ) : LSFSums :=
  List.foldl (fun s i => lsfAccum s (uvw.getD i ⟨0, 0, 0⟩)) ⟨0, 0, 0, 0, 0⟩ (List.range n)

/-- Determinant of the normal equations, `D = su2 * sv2 - square(suv)`. -/
def lsfDet (s : LSFSums) : ℚ :=
  s.su2 * s.sv2 - s.suv * s.suv

/-- The A coefficient produced by a (non-singular) fit,
`(sv2 * suw - suv * svw) / D`. -/
def lsfCoeffA (s : LSFSums) : ℚ :=
  (s.sv2 * s.suw - s.suv * s.svw) / lsfDet s

/-- The B coefficient produced by a (non-singular) fit,
`(su2 * svw - suv * suw) / D`. -/
def lsfCoeffB (s : LSFSums) : ℚ :=
  (s.su2 * s.svw - s.suv * s.suw) / lsfDet s

/-- The determinant cut-off `1e-7` below which a fit is treated as singular. -/
def detTol : ℚ := 1 / 10000000

/-- `BestWPlaneDataAccessor::maxWDeviation`: the largest `|A*u + B*v - w|`
over the rows of `uvw`, starting from `0`. -/
def maxWDeviation (coeffA coeffB : ℚ) (uvw : List UVW) : ℚ :=
  List.foldl
    (fun m r =>
      let d := |coeffA * r.u + coeffB * r.v - r.w|
      if d > m then d else m)
    0 uvw

/-- Largest deviation reading rows `0..n-1` of `uvw` (the inline deviation
loop at lines 296-302 runs the index over the original chunk's row count while
reading the advanced-time vector). -/
def maxWDeviationRange (coeffA coeffB : ℚ) (uvw : List UVW) (n : ℕ) : ℚ :=
  List.foldl
    (fun m i =>
      let r := uvw.getD i ⟨0, 0, 0⟩
      let d := |coeffA * r.u + coeffB * r.v - r.w|
      if d > m then d else m)
    0 (List.range n)

/-- `BestWPlaneDataAccessor::updatePlaneIfNecessary` (reactive policy):
if the chunk has at least 2 rows and the deviation from the current plane
reaches the tolerance, attempt a least-squares refit; a near-zero determinant
leaves the coefficients untouched; a successful fit commits new coefficients,
notifies the plane change monitor and reports the deviation from the new
plane. -/
def updatePlaneIfNecessary (st : PlaneFitState) (uvw : List UVW) (tolerance : ℚ) :
    PlaneFitState × ℚ :=
  let maxDeviation := maxWDeviation st.coeffA st.coeffB uvw
  if uvw.length < 2 ∨ maxDeviation < tolerance then
    (st, maxDeviation)
  else
    let s := lsfSums uvw
    if |lsfDet s| < detTol then
      (st, maxDeviation)
    else
      let st' : PlaneFitState :=
        { coeffA := lsfCoeffA s
          coeffB := lsfCoeffB s
          planeEpoch := st.planeEpoch + 1 }
      (st', maxWDeviation st'.coeffA st'.coeffB uvw)

/-- How `updateAdvancedTimePlaneIfNecessary` returned, recording which of its
`return` statements produced the result. -/
inductive ExitKind where
  /-- Line 220: the current plane is already within tolerance. -/
  | withinTolerance
  /-- Line 251: the fit for the current chunk has a near-zero determinant. -/
  | singularFirstFit
  /-- Line 273: even the fresh fit for the current chunk exceeds tolerance. -/
  | hardViolation
  /-- Line 341: a fit inside the commit loop has a near-zero determinant. -/
  | singularSearchFit
  /-- Line 356: the commit loop finished normally. -/
  | committed
deriving DecidableEq

/-- The forward time-advance search (lines 286-306): starting from the
deviation of the temporary fit at the original tangent point, keep shifting
the tangent point by one time step and re-evaluating the temporary plane on
the re-fetched coordinates until the deviation reaches the tolerance.  The
C++ loop has no iteration ceiling, so it is embedded with explicit fuel;
`none` models a search that did not terminate within the fuel.  Returns the
advanced tangent point in hand when the loop exits. -/
def advanceLoop (acc : TangentPoint → List UVW) (tmpA tmpB tolerance step : ℚ) (n : ℕ) :
    ℕ → ℚ → TangentPoint → Option TangentPoint
  | fuel, dev, tp =>
    if dev < tolerance then
      match fuel with
      | 0 => none
      | fuel + 1 =>
        let tp' := shiftLongitude tp step
        advanceLoop acc tmpA tmpB tolerance step n fuel
          (maxWDeviationRange tmpA tmpB (acc tp') n) tp'
    else some tp

/-- The commit loop (the do-while at lines 310-349): each iteration evaluates
the deviation at the *original* tangent point under the currently committed
coefficients, steps the advanced tangent point back by one time step, refits
on the coordinates there and, unless that fit is singular, commits it; it
repeats while the original-point deviation (computed before the commit)
exceeded the tolerance.  On normal exit the source returns
`maxWDeviation(uvw)`, i.e. the deviation at the original tangent point under
the finally committed coefficients (line 356).  Fuel bounds the unbounded
C++ loop. -/
def commitLoop (acc : TangentPoint → List UVW) (origTP : TangentPoint)
    (tolerance step : ℚ) (n : ℕ) :
    ℕ → PlaneFitState → TangentPoint → Option (PlaneFitState × ℚ × ExitKind)
  | 0, _, _ => none
  | fuel + 1, st, tp =>
    let onExitDeviation := maxWDeviation st.coeffA st.coeffB (acc origTP)
    let tp' := shiftLongitude tp (-step)
    let s := lsfSumsRange (acc tp') n
    if |lsfDet s| < detTol then
      some (st, onExitDeviation, ExitKind.singularSearchFit)
    else
      let st' : PlaneFitState :=
        { coeffA := lsfCoeffA s
          coeffB := lsfCoeffB s
          planeEpoch := st.planeEpoch + 1 }
      if onExitDeviation > tolerance then
        commitLoop acc origTP tolerance step n fuel st' tp'
      else
        some (st', maxWDeviation st'.coeffA st'.coeffB (acc origTP), ExitKind.committed)

/-- The state transition performed by one committing iteration of the
do-while at lines 310-349: step the advanced tangent point back by one time
step and commit the least-squares fit of the coordinates at the rolled-back
position.  Iterating this function from the loop's entry state names exactly
the (state, advanced tangent point) pairs in hand at the start of each
iteration of a run of `commitLoop` in which every fit is non-singular. -/
def commitIter (acc : TangentPoint → List UVW) (step : ℚ) (n : ℕ)
    (p : PlaneFitState × TangentPoint) : PlaneFitState × TangentPoint :=
  let tp' := shiftLongitude p.2 (-step)
  let s := lsfSumsRange (acc tp') n
  (⟨lsfCoeffA s, lsfCoeffB s, p.1.planeEpoch + 1⟩, tp')

/-- `BestWPlaneDataAccessor::updateAdvancedTimePlaneIfNecessary` (predictive
policy).  `acc` stands for the underlying accessor's `rotatedUVW`, giving the
chunk coordinates for a tangent point; `radPerSec` is the numeric value of
one second of Earth rotation in radians (`Quantity(-360/86400, "deg")` read
in radians involves pi, so it is kept as an opaque rational parameter);
`interval` is `itsPredictTimeInterval`.  Embedded with fuel for the two
unbounded loops. -/
def updateAdvancedTimePlaneIfNecessary (acc : TangentPoint → List UVW)
    (radPerSec interval : ℚ) (fuel : ℕ) (st : PlaneFitState) (tolerance : ℚ)
    (tangentPoint : TangentPoint) : Option (PlaneFitState × ℚ × ExitKind) :=
  let uvw := acc tangentPoint
  let advancedDeviation := maxWDeviation st.coeffA st.coeffB uvw
  if advancedDeviation < tolerance then
    some (st, advancedDeviation, ExitKind.withinTolerance)
  else
    let s := lsfSums uvw
    if |lsfDet s| < detTol then
      some (st, advancedDeviation, ExitKind.singularFirstFit)
    else
      let tmpCoeffA := lsfCoeffA s
      let tmpCoeffB := lsfCoeffB s
      let fitDeviation := maxWDeviation tmpCoeffA tmpCoeffB uvw
      if fitDeviation > tolerance then
        some (st, fitDeviation, ExitKind.hardViolation)
      else
        let step := interval * radPerSec
        match advanceLoop acc tmpCoeffA tmpCoeffB tolerance step uvw.length fuel
            fitDeviation tangentPoint with
        | none => none
        | some tpOut =>
          commitLoop acc tangentPoint tolerance step uvw.length fuel st tpOut

/-- The full mutable state of a `BestWPlaneDataAccessor` instance.
`lastSourceEpoch` is modelled from the spec: the header defining
`itsUVWChangeMonitor` and its synchronisation with the underlying accessor's
change monitor is not among this repository's files, so, following the spec's
ChangeEpoch tracker ("one counter signaling the upstream geometry source
produced new data"; cached coordinates "rebuilt whenever sourceEpoch
advances"), the state remembers the source epoch it last rebuilt for, and the
early-return branch of `rotatedUVW` fires exactly when the source epoch is
unchanged. -/
structure AccessorState where
  /-- `itsCheckResidual`. -/
  checkResidual : Bool
  /-- `itsWTolerance`, in wavelengths. -/
  wTolerance : ℚ
  /-- `itsCoeffA`, `itsCoeffB` and the plane change monitor. -/
  plane : PlaneFitState
  /-- Modelled from the spec: the source epoch the cache was last rebuilt for. -/
  lastSourceEpoch : ℕ
  /-- `itsLastTangentPoint`. -/
  lastTangentPoint : TangentPoint
  /-- `itsRotatedUVW`, the cached corrected-coordinate buffer. -/
  itsRotatedUVW : List UVW
  /-- `itsPredictWPlane`. -/
  predictWPlane : Bool
  /-- `itsPredictTimeInterval`. -/
  predictTimeInterval : ℚ
deriving DecidableEq

/-- The external collaborators of one `rotatedUVW` call: the underlying
accessor's per-tangent-point coordinates and frequency list, the current
source epoch (spec-modelled change counter), and the opaque rational standing
for one second of Earth rotation in radians. -/
structure Env where
  acc : TangentPoint → List UVW
  freq : List ℚ
  sourceEpoch : ℕ
  radPerSec : ℚ

/-- `casacore::C::c`, the speed of light in m/s. -/
def speedOfLight : ℚ := 299792458

/-- Tolerance conversion of lines 132-138: the w tolerance in wavelengths
times the speed of light divided by `maxFreq`, where `maxFreq` is the first
frequency for a single-channel chunk and otherwise the larger of the first
and last channel frequencies. -/
def tolInMetres (wTolerance : ℚ) (freq : List ℚ) : ℚ :=
  let maxFreq :=
    if freq.length = 1 then freq.headD 0 else max (freq.headD 0) (freq.getLastD 0)
  wTolerance * speedOfLight / maxFreq

/-- Modelled from the spec: the spec's ToleranceInMetres,
"toleranceInWavelengths × speed-of-light / maxFrequencyInChunk", with the
maximum taken over all channels of the chunk.  Kept separate from
`tolInMetres` (the source's computation) so the two can be compared. -/
def specToleranceInMetres (wTolerance : ℚ) (freq : List ℚ) : ℚ :=
  let maxFreq :=
    match freq with
    | [] => 0
    | f :: rest => List.foldl max f rest
  wTolerance * speedOfLight / maxFreq

/-- Error outcomes of a `rotatedUVW` call.  The first three stand for the
`ASKAPCHECK` exceptions at lines 113, 133 and 149; `outOfFuel` models a
predictive search that did not terminate within the embedding's fuel. -/
inductive AccessorError where
  | preconditionViolation
  | emptyFrequencyList
  | toleranceExceeded
  | outOfFuel
deriving DecidableEq

instance {ε α : Type} [DecidableEq ε] [DecidableEq α] : DecidableEq (Except ε α) :=
  fun x y =>
    match x, y with
    | Except.ok a, Except.ok b =>
      if h : a = b then isTrue (by rw [h]) else
        isFalse (fun hc => h (Except.ok.inj hc))
    | Except.error a, Except.error b =>
      if h : a = b then isTrue (by rw [h]) else
        isFalse (fun hc => h (Except.error.inj hc))
    | Except.ok _, Except.error _ => isFalse (fun hc => Except.noConfusion hc)
    | Except.error _, Except.ok _ => isFalse (fun hc => Except.noConfusion hc)

/-- Dispatch to the refit policy (lines 142-147): the reactive
`updatePlaneIfNecessary` when `predictWPlane` is false, the predictive
`updateAdvancedTimePlaneIfNecessary` otherwise.  Returns the plane state and
the deviation the policy reported. -/
def runPolicy (env : Env) (fuel : ℕ) (plane : PlaneFitState)
    (predictWPlane : Bool) (predictTimeInterval : ℚ) (tangentPoint : TangentPoint)
    (tolM : ℚ) : Option (PlaneFitState × ℚ) :=
  if predictWPlane = false then
    some (updatePlaneIfNecessary plane (env.acc tangentPoint) tolM)
  else
    (updateAdvancedTimePlaneIfNecessary env.acc env.radPerSec predictTimeInterval
        fuel plane tolM tangentPoint).map (fun r => (r.1, r.2.1))

/-- `BestWPlaneDataAccessor::rotatedUVW`.  When the source is unchanged the
cached buffer is returned after the tangent-point sanity check; otherwise the
tangent point is adopted, the tolerance is converted to metres, the selected
refit policy runs, the optional residual check fires, and the corrected
buffer `(u, v, w - (coeffA*u + coeffB*v))` is rebuilt and returned together
with the updated state. -/
def rotatedUVW (env : Env) (fuel : ℕ) (st : AccessorState)
    (tangentPoint : TangentPoint) : Except AccessorError (AccessorState × List UVW) :=
  if env.sourceEpoch = st.lastSourceEpoch then
    if compareDirections tangentPoint st.lastTangentPoint then
      Except.ok (st, st.itsRotatedUVW)
    else
      Except.error AccessorError.preconditionViolation
  else
    if env.freq.length < 1 then
      Except.error AccessorError.emptyFrequencyList
    else
      let originalUVW := env.acc tangentPoint
      let tolM := tolInMetres st.wTolerance env.freq
      match runPolicy env fuel st.plane st.predictWPlane st.predictTimeInterval
          tangentPoint tolM with
      | none => Except.error AccessorError.outOfFuel
      | some (plane', maxDeviation) =>
        if st.checkResidual = true ∧ ¬ maxDeviation < tolM then
          Except.error AccessorError.toleranceExceeded
        else
          let out := originalUVW.map
            (fun r => ⟨r.u, r.v, r.w - (plane'.coeffA * r.u + plane'.coeffB * r.v)⟩)
          Except.ok
            ({ st with
                plane := plane'
                lastTangentPoint := tangentPoint
                itsRotatedUVW := out
                lastSourceEpoch := env.sourceEpoch }, out)

/-- Chunk used by the refutation of C6: the original tangent point (longitude
0) sees rows on the plane w = 100*u; one time step ahead (longitude 1) the
rows are flat; one step back (longitude -1) the rows lie on w = 50*v, so the
fit committed there is bad at the original point. -/
def accC6 : TangentPoint → List UVW := fun p =>
  if p.lon = 1 then [⟨1, 0, 0⟩, ⟨0, 1, 0⟩]
  else if p.lon = -1 then [⟨1, 0, 0⟩, ⟨0, 1, 50⟩]
  else [⟨1, 0, 100⟩, ⟨0, 1, 0⟩]

/-- Chunk used by the witness of C10: a symmetric cross plus one outlier row,
whose least-squares plane (A = B = 2) still misses the outlier by 4. -/
def acc10 : TangentPoint → List UVW := fun _ =>
  [⟨1, 0, 0⟩, ⟨0, 1, 0⟩, ⟨-1, 0, 0⟩, ⟨0, -1, 0⟩, ⟨1, 1, 8⟩]

/-! ## Helper lemmas -/

/-- If every row lies exactly on the plane `w = A0*u + B0*v`, the accumulated
sums satisfy `suw = A0*su2 + B0*suv` and `svw = A0*suv + B0*sv2` whenever the
initial accumulator does. -/
theorem lsfAccum_foldl_onPlane (A0 B0 : ℚ) :
    ∀ (l : List UVW) (s : LSFSums), (∀ r ∈ l, r.w = A0 * r.u + B0 * r.v) →
      s.suw = A0 * s.su2 + B0 * s.suv → s.svw = A0 * s.suv + B0 * s.sv2 →
      (List.foldl lsfAccum s l).suw
          = A0 * (List.foldl lsfAccum s l).su2 + B0 * (List.foldl lsfAccum s l).suv ∧
        (List.foldl lsfAccum s l).svw
          = A0 * (List.foldl lsfAccum s l).suv + B0 * (List.foldl lsfAccum s l).sv2 := by
  intro l
  induction l with
  | nil => intro s _ h1 h2; exact ⟨h1, h2⟩
  | cons r l ih =>
    intro s hmem h1 h2
    have hr : r.w = A0 * r.u + B0 * r.v := hmem r (List.mem_cons_self r l)
    rw [List.foldl_cons]
    refine ih (lsfAccum s r) (fun x hx => hmem x (List.mem_cons_of_mem r hx)) ?_ ?_
    · simp only [lsfAccum, hr, h1]; ring
    · simp only [lsfAccum, hr, h2]; ring

/-- The sums over a list of rows on the plane `w = A0*u + B0*v`. -/
theorem lsfSums_onPlane (A0 B0 : ℚ) (l : List UVW)
    (h : ∀ r ∈ l, r.w = A0 * r.u + B0 * r.v) :
    (lsfSums l).suw = A0 * (lsfSums l).su2 + B0 * (lsfSums l).suv ∧
      (lsfSums l).svw = A0 * (lsfSums l).suv + B0 * (lsfSums l).sv2 :=
  lsfAccum_foldl_onPlane A0 B0 l ⟨0, 0, 0, 0, 0⟩ h (by norm_num) (by norm_num)

/-- The largest deviation of rows lying exactly on the plane is 0. -/
theorem maxWDeviation_onPlane (A0 B0 : ℚ) :
    ∀ l : List UVW, (∀ r ∈ l, r.w = A0 * r.u + B0 * r.v) →
      maxWDeviation A0 B0 l = 0 := by
  have key : ∀ l : List UVW, (∀ r ∈ l, r.w = A0 * r.u + B0 * r.v) →
      List.foldl
        (fun m r =>
          let d := |A0 * r.u + B0 * r.v - r.w|
          if d > m then d else m) 0 l = 0 := by
    intro l
    induction l with
    | nil => intro _; rfl
    | cons r l ih =>
      intro hmem
      have hr : r.w = A0 * r.u + B0 * r.v := hmem r (List.mem_cons_self r l)
      have hd : |A0 * r.u + B0 * r.v - r.w| = 0 := by rw [hr]; simp
      rw [List.foldl_cons]
      simp only [hd]
      rw [if_neg (lt_irrefl 0)]
      exact ih (fun x hx => hmem x (List.mem_cons_of_mem r hx))
  intro l h
  exact key l h

/-- A determinant at least `detTol` in absolute value is nonzero. -/
theorem lsfDet_ne_zero {s : LSFSums} (h : detTol ≤ |lsfDet s|) : lsfDet s ≠ 0 := by
  intro h0
  rw [h0] at h
  simp only [abs_zero, detTol] at h
  norm_num at h

/-! ## C1: exact recovery of a plane by the reactive refit -/

/-- Claim C1: for a chunk of at least 2 rows lying exactly on the plane
`w = A0*u + B0*v`, with non-singular normal equations, a refit triggered
because the prior plane's deviation reaches the tolerance commits exactly
`A = A0`, `B = B0` (the closed-form coefficients coincide with the true
plane), advances the plane epoch, and reports deviation 0 after the fit. -/
theorem updatePlaneIfNecessary_exact_plane (st : PlaneFitState) (uvw : List UVW)
    (tolerance A0 B0 : ℚ)
    (hlen : 2 ≤ uvw.length)
    (hplane : ∀ r ∈ uvw, r.w = A0 * r.u + B0 * r.v)
    (hdev : ¬ maxWDeviation st.coeffA st.coeffB uvw < tolerance)
    (hD : detTol ≤ |lsfDet (lsfSums uvw)|) :
    updatePlaneIfNecessary st uvw tolerance = (⟨A0, B0, st.planeEpoch + 1⟩, 0) := by
  have hD0 : lsfDet (lsfSums uvw) ≠ 0 := lsfDet_ne_zero hD
  obtain ⟨hsuw, hsvw⟩ := lsfSums_onPlane A0 B0 uvw hplane
  have hA : lsfCoeffA (lsfSums uvw) = A0 := by
    rw [lsfCoeffA]
    rw [show (lsfSums uvw).sv2 * (lsfSums uvw).suw - (lsfSums uvw).suv * (lsfSums uvw).svw
        = A0 * lsfDet (lsfSums uvw) by rw [hsuw, hsvw, lsfDet]; ring]
    exact mul_div_cancel_right₀ A0 hD0
  have hB : lsfCoeffB (lsfSums uvw) = B0 := by
    rw [lsfCoeffB]
    rw [show (lsfSums uvw).su2 * (lsfSums uvw).svw - (lsfSums uvw).suv * (lsfSums uvw).suw
        = B0 * lsfDet (lsfSums uvw) by rw [hsuw, hsvw, lsfDet]; ring]
    exact mul_div_cancel_right₀ B0 hD0
  simp only [updatePlaneIfNecessary]
  rw [if_neg (by push_neg; exact ⟨hlen, not_lt.mp hdev⟩)]
  rw [if_neg (not_lt.mpr hD)]
  rw [hA, hB]
  rw [maxWDeviation_onPlane A0 B0 uvw hplane]

/-- Witness for C1 at a concrete chunk on the plane w = 2u + 3v. -/
theorem updatePlaneIfNecessary_exact_plane_witness :
    updatePlaneIfNecessary ⟨0, 0, 0⟩ [⟨1, 0, 2⟩, ⟨0, 1, 3⟩] (1/2) = (⟨2, 3, 1⟩, 0) :=
  updatePlaneIfNecessary_exact_plane ⟨0, 0, 0⟩ [⟨1, 0, 2⟩, ⟨0, 1, 3⟩] (1/2) 2 3
    (by decide) (by decide) (by decide) (by decide)

/-! ## C8: fewer than 2 rows skip the fit -/

/-- Claim C8: with fewer than 2 rows the reactive policy attempts no fit: the
committed coefficients are returned unchanged together with the chunk's
deviation under those prior coefficients. -/
theorem updatePlaneIfNecessary_few_rows (st : PlaneFitState) (uvw : List UVW)
    (tolerance : ℚ) (hlen : uvw.length < 2) :
    updatePlaneIfNecessary st uvw tolerance =
      (st, maxWDeviation st.coeffA st.coeffB uvw) := by
  simp only [updatePlaneIfNecessary]
  rw [if_pos (Or.inl hlen)]

/-- Witness for C8 on a single-row chunk. -/
theorem updatePlaneIfNecessary_few_rows_witness :
    updatePlaneIfNecessary ⟨5, 7, 3⟩ [⟨1, 2, 9⟩] 1 =
      (⟨5, 7, 3⟩, maxWDeviation 5 7 [⟨1, 2, 9⟩]) :=
  updatePlaneIfNecessary_few_rows ⟨5, 7, 3⟩ [⟨1, 2, 9⟩] 1 (by decide)

/-! ## C2: singular fits retain the prior coefficients -/

/-- Claim C2: at each of the three fit sites (reactive fit, first predictive
fit, fit inside the predictive commit loop), a determinant with
`|D| < 1e-7` leaves the committed coefficients unchanged, produces a normal
return rather than an exception, and the returned deviation is the one
computed under the prior, retained coefficients. -/
theorem singularFit_retains_coefficients :
    (∀ (st : PlaneFitState) (uvw : List UVW) (tolerance : ℚ),
      ¬ (uvw.length < 2 ∨ maxWDeviation st.coeffA st.coeffB uvw < tolerance) →
      |lsfDet (lsfSums uvw)| < detTol →
      updatePlaneIfNecessary st uvw tolerance =
        (st, maxWDeviation st.coeffA st.coeffB uvw)) ∧
    (∀ (acc : TangentPoint → List UVW) (radPerSec interval : ℚ) (fuel : ℕ)
      (st : PlaneFitState) (tolerance : ℚ) (tp : TangentPoint),
      ¬ maxWDeviation st.coeffA st.coeffB (acc tp) < tolerance →
      |lsfDet (lsfSums (acc tp))| < detTol →
      updateAdvancedTimePlaneIfNecessary acc radPerSec interval fuel st tolerance tp =
        some (st, maxWDeviation st.coeffA st.coeffB (acc tp),
          ExitKind.singularFirstFit)) ∧
    (∀ (acc : TangentPoint → List UVW) (origTP : TangentPoint) (tolerance step : ℚ)
      (n fuel : ℕ) (st : PlaneFitState) (tp : TangentPoint),
      |lsfDet (lsfSumsRange (acc (shiftLongitude tp (-step))) n)| < detTol →
      commitLoop acc origTP tolerance step n (fuel + 1) st tp =
        some (st, maxWDeviation st.coeffA st.coeffB (acc origTP),
          ExitKind.singularSearchFit)) := by
  refine ⟨?_, ?_, ?_⟩
  · intro st uvw tolerance hno hsing
    simp only [updatePlaneIfNecessary]
    rw [if_neg hno, if_pos hsing]
  · intro acc radPerSec interval fuel st tolerance tp hdev hsing
    simp only [updateAdvancedTimePlaneIfNecessary]
    rw [if_neg hdev, if_pos hsing]
  · intro acc origTP tolerance step n fuel st tp hsing
    simp only [commitLoop]
    rw [if_pos hsing]

/-- Witness for C2: colinear rows at all three sites. -/
theorem singularFit_retains_coefficients_witness :
    (updatePlaneIfNecessary ⟨0, 0, 0⟩ [⟨1, 0, 5⟩, ⟨2, 0, 0⟩] 1 =
      (⟨0, 0, 0⟩, maxWDeviation 0 0 [⟨1, 0, 5⟩, ⟨2, 0, 0⟩])) ∧
    (updateAdvancedTimePlaneIfNecessary (fun _ => [⟨1, 0, 5⟩, ⟨2, 0, 0⟩]) 1 1 3
        ⟨0, 0, 0⟩ 1 ⟨0, 0⟩ =
      some (⟨0, 0, 0⟩, maxWDeviation 0 0 [⟨1, 0, 5⟩, ⟨2, 0, 0⟩],
        ExitKind.singularFirstFit)) ∧
    (commitLoop (fun p => if p.lon = -1 then [⟨1, 0, 0⟩, ⟨2, 0, 0⟩] else [⟨1, 0, 2⟩, ⟨0, 1, 0⟩])
        ⟨0, 0⟩ 1 1 2 1 ⟨7, 0, 0⟩ ⟨0, 0⟩ =
      some (⟨7, 0, 0⟩,
        maxWDeviation 7 0
          ((fun p => if p.lon = -1 then [⟨1, 0, 0⟩, ⟨2, 0, 0⟩] else [⟨1, 0, 2⟩, ⟨0, 1, 0⟩])
            (⟨0, 0⟩ : TangentPoint)),
        ExitKind.singularSearchFit)) := by
  refine ⟨?_, ?_, ?_⟩
  · exact singularFit_retains_coefficients.1 ⟨0, 0, 0⟩ [⟨1, 0, 5⟩, ⟨2, 0, 0⟩] 1
      (by decide) (by decide)
  · exact singularFit_retains_coefficients.2.1 (fun _ => [⟨1, 0, 5⟩, ⟨2, 0, 0⟩]) 1 1 3
      ⟨0, 0, 0⟩ 1 ⟨0, 0⟩ (by decide) (by decide)
  · exact singularFit_retains_coefficients.2.2
      (fun p => if p.lon = -1 then [⟨1, 0, 0⟩, ⟨2, 0, 0⟩] else [⟨1, 0, 2⟩, ⟨0, 1, 0⟩])
      ⟨0, 0⟩ 1 1 2 0 ⟨7, 0, 0⟩ ⟨0, 0⟩ (by decide)

/-! ## C5: tolerance conversion uses the first/last frequency, not the
maximum over all channels -/

/-- The last element of a list with a fallback is either the fallback or a
member of the list. -/
theorem getLastD_eq_or_mem (l : List ℚ) (x : ℚ) :
    l.getLastD x = x ∨ l.getLastD x ∈ l := by
  induction l generalizing x with
  | nil => exact Or.inl rfl
  | cons y ys ih =>
    rw [List.getLastD_cons]
    rcases ih y with h | h
    · exact Or.inr (by rw [h]; exact List.mem_cons_self y ys)
    · exact Or.inr (List.mem_cons_of_mem y h)

/-- Folding `max` over the tail of a non-decreasing list lands on its last
element. -/
theorem foldl_max_sorted_asc (l : List ℚ) :
    ∀ x : ℚ, List.Sorted (fun a b => a ≤ b) (x :: l) →
      List.foldl max x l = l.getLastD x := by
  induction l with
  | nil => intro x _; rfl
  | cons y ys ih =>
    intro x hs
    have hxy : x ≤ y := (List.pairwise_cons.mp hs).1 y (List.mem_cons_self y ys)
    rw [List.foldl_cons, List.getLastD_cons, max_eq_right hxy]
    exact ih y (List.pairwise_cons.mp hs).2

/-- Folding `max` over a list dominated by the initial value returns the
initial value. -/
theorem foldl_max_dominated (l : List ℚ) :
    ∀ x : ℚ, (∀ a ∈ l, a ≤ x) → List.foldl max x l = x := by
  induction l with
  | nil => intro x _; rfl
  | cons y ys ih =>
    intro x h
    rw [List.foldl_cons, max_eq_left (h y (List.mem_cons_self y ys))]
    exact ih x (fun a ha => h a (List.mem_cons_of_mem y ha))

/-- Counterexample to C5: for the (non-monotonic) frequency list `[1, 5, 2]`
the code divides by `max(first, last) = 2`, not by the claim's maximum over
all channels, `5`; the derived tolerance differs. -/
theorem tolInMetres_not_max_over_all_channels :
    tolInMetres 1 [1, 5, 2] ≠ specToleranceInMetres 1 [1, 5, 2] := by decide

/-- Claim C5 as amended: the tolerance in metres is
`toleranceInWavelengths * c / max(firstFrequency, lastFrequency)`; whenever
the channel frequencies are monotonically ordered (non-decreasing or
non-increasing), this coincides with the claim's
`toleranceInWavelengths * c / maxFrequencyInChunk` over all channels. -/
theorem tolInMetres_eq_spec_of_monotonic (wTolerance : ℚ) (freq : List ℚ)
    (hne : freq ≠ [])
    (hsort : List.Sorted (fun a b => a ≤ b) freq ∨
      List.Sorted (fun a b => b ≤ a) freq) :
    tolInMetres wTolerance freq = specToleranceInMetres wTolerance freq := by
  obtain ⟨x, l, rfl⟩ : ∃ x l, freq = x :: l := by
    cases freq with
    | nil => exact absurd rfl hne
    | cons a as => exact ⟨a, as, rfl⟩
  cases l with
  | nil => rfl
  | cons y ys =>
    simp only [tolInMetres, specToleranceInMetres, List.headD_cons]
    rw [if_neg (by simp), List.getLastD_cons]
    rcases hsort with hasc | hdesc
    · rw [foldl_max_sorted_asc (y :: ys) x hasc]
      have hx : x ≤ (y :: ys).getLastD x := by
        rcases getLastD_eq_or_mem (y :: ys) x with h | h
        · rw [h]
        · exact (List.pairwise_cons.mp hasc).1 _ h
      rw [max_eq_right hx]
    · have hdom : ∀ a ∈ y :: ys, a ≤ x := (List.pairwise_cons.mp hdesc).1
      rw [foldl_max_dominated (y :: ys) x hdom]
      have hx : (y :: ys).getLastD x ≤ x := by
        rcases getLastD_eq_or_mem (y :: ys) x with h | h
        · rw [h]
        · exact hdom _ h
      rw [max_eq_left hx]

/-- Witness for the amended C5 on a sorted frequency list. -/
theorem tolInMetres_eq_spec_of_monotonic_witness :
    tolInMetres 2 [1, 2, 5] = specToleranceInMetres 2 [1, 2, 5] :=
  tolInMetres_eq_spec_of_monotonic 2 [1, 2, 5] (by decide) (Or.inl (by decide))

/-! ## C7: the tangent-point precondition is only checked on the cached path -/

/-- Counterexample to C7: a call whose source geometry has changed since the
previous call, made with a tangent point far from the bound one
(`compareDirections` is false), does not fail with a precondition violation:
the new tangent point is silently adopted and the call succeeds. -/
theorem rotatedUVW_adopts_new_tangent_point :
    compareDirections ⟨1, 0⟩ (⟨0, 0⟩ : TangentPoint) = false ∧
    rotatedUVW ⟨(fun _ => [⟨1, 0, 0⟩, ⟨0, 1, 0⟩]), [1], 1, 1⟩ 0
        ⟨false, 1, ⟨0, 0, 0⟩, 0, ⟨0, 0⟩, [], false, 1⟩ ⟨1, 0⟩ =
      Except.ok
        (⟨false, 1, ⟨0, 0, 0⟩, 1, ⟨1, 0⟩, [⟨1, 0, 0⟩, ⟨0, 1, 0⟩], false, 1⟩,
          [⟨1, 0, 0⟩, ⟨0, 1, 0⟩]) := by
  constructor
  · decide
  · decide

/-- Claim C7 as amended: the precondition violation for a materially
different tangent point is raised exactly on the cached path, i.e. on a call
whose source geometry is unchanged since the previous call; a call that sees
changed source geometry adopts the new tangent point without any check. -/
theorem rotatedUVW_precondition_on_cached_path (env : Env) (fuel : ℕ)
    (st : AccessorState) (tp : TangentPoint)
    (hsrc : env.sourceEpoch = st.lastSourceEpoch)
    (hfar : compareDirections tp st.lastTangentPoint = false) :
    rotatedUVW env fuel st tp = Except.error AccessorError.preconditionViolation := by
  simp only [rotatedUVW]
  rw [if_pos hsrc]
  simp [hfar]

/-- Witness for the amended C7: an unchanged source with a far tangent point
fails with the precondition violation. -/
theorem rotatedUVW_precondition_on_cached_path_witness :
    rotatedUVW ⟨(fun _ => [⟨1, 0, 0⟩]), [1], 4, 1⟩ 0
        ⟨false, 1, ⟨0, 0, 0⟩, 4, ⟨0, 0⟩, [], false, 1⟩ ⟨2, 0⟩ =
      Except.error AccessorError.preconditionViolation :=
  rotatedUVW_precondition_on_cached_path ⟨(fun _ => [⟨1, 0, 0⟩]), [1], 4, 1⟩ 0
    ⟨false, 1, ⟨0, 0, 0⟩, 4, ⟨0, 0⟩, [], false, 1⟩ ⟨2, 0⟩ rfl (by decide)

/-! ## C9: idempotence of consecutive calls with unchanged source geometry -/

/-- A tangent point always compares equal to itself. -/
theorem compareDirections_self (tp : TangentPoint) : compareDirections tp tp = true := by
  simp only [compareDirections, sub_self, abs_zero, Bool.and_eq_true, decide_eq_true_eq]
  norm_num

/-- Claim C9: if a call to `rotatedUVW` succeeds and the source geometry does
not change afterwards (same environment, hence same source epoch), a second
call with the same tangent point returns the identical corrected coordinates
and the identical state — in particular the committed coefficients and the
plane epoch do not change. -/
theorem rotatedUVW_idempotent (env : Env) (fuel : ℕ) (st : AccessorState)
    (tp : TangentPoint) (st₁ : AccessorState) (out : List UVW)
    (h : rotatedUVW env fuel st tp = Except.ok (st₁, out)) :
    rotatedUVW env fuel st₁ tp = Except.ok (st₁, out) := by
  simp only [rotatedUVW] at h
  by_cases hsrc : env.sourceEpoch = st.lastSourceEpoch
  · rw [if_pos hsrc] at h
    by_cases hcmp : compareDirections tp st.lastTangentPoint = true
    · rw [if_pos hcmp] at h
      obtain ⟨h1, h2⟩ := Prod.mk.inj (Except.ok.inj h)
      subst h1
      subst h2
      simp only [rotatedUVW]
      rw [if_pos hsrc, if_pos hcmp]
    · rw [if_neg hcmp] at h
      exact absurd h (by simp)
  · rw [if_neg hsrc] at h
    by_cases hfreq : env.freq.length < 1
    · rw [if_pos hfreq] at h
      exact absurd h (by simp)
    · rw [if_neg hfreq] at h
      cases hrp : runPolicy env fuel st.plane st.predictWPlane st.predictTimeInterval
          tp (tolInMetres st.wTolerance env.freq) with
      | none =>
        rw [hrp] at h
        exact absurd h (by simp)
      | some pr =>
        obtain ⟨plane', d⟩ := pr
        simp only [hrp] at h
        by_cases hchk : st.checkResidual = true ∧ ¬ d < tolInMetres st.wTolerance env.freq
        · rw [if_pos hchk] at h
          exact absurd h (by simp)
        · rw [if_neg hchk] at h
          obtain ⟨h1, h2⟩ := Prod.mk.inj (Except.ok.inj h)
          subst h1
          subst h2
          simp [rotatedUVW, compareDirections_self]

/-! ## C6: what the predictive commit loop actually validates -/

/-- Counterexample to C6: a predictive run on `accC6` commits twice
(plane epoch 0 to 2) and exits the commit loop normally (not via a singular
fit), yet the deviation at the original, unadvanced tangent point under the
finally committed coefficients is 100, far above the tolerance 10: the final
commit was never validated against the original tangent point inside the
loop — only the previous commit was. -/
theorem updateAdvancedTime_unvalidated_final_commit :
    updateAdvancedTimePlaneIfNecessary accC6 1 1 10 ⟨0, 0, 0⟩ 10 ⟨0, 0⟩ =
      some (⟨0, 50, 2⟩, maxWDeviation 0 50 (accC6 ⟨0, 0⟩), ExitKind.committed) ∧
    ¬ maxWDeviation 0 50 (accC6 ⟨0, 0⟩) < 10 :=
  ⟨by decide, by decide⟩

/-- Claim C6 as amended: a normal (non-singular) exit of the predictive
commit loop happens after some k+1 iterations, whose starting states are
exactly the loop's own commit iterates of the entry state; the deviation at
the original tangent point evaluated under the coefficients in effect at the
START of the final iteration — the plane committed by the previous iteration
(the entry coefficients when k = 0) — is within tolerance, every earlier
iteration's validation failed (which is why the loop continued), and exactly
one further commit follows the successful validation, producing the final
coefficients; the returned deviation evaluates those final coefficients at
the original tangent point and may still exceed the tolerance (left to the
residual check, when enabled). -/
theorem commitLoop_validates_previous_commit (acc : TangentPoint → List UVW)
    (origTP : TangentPoint) (tolerance step : ℚ) (n : ℕ) :
    ∀ (fuel : ℕ) (st : PlaneFitState) (tp : TangentPoint) (st' : PlaneFitState)
      (d : ℚ),
      commitLoop acc origTP tolerance step n fuel st tp =
        some (st', d, ExitKind.committed) →
      ∃ k : ℕ,
        (∀ j, j < k →
          tolerance < maxWDeviation
            ((commitIter acc step n)^[j] (st, tp)).1.coeffA
            ((commitIter acc step n)^[j] (st, tp)).1.coeffB (acc origTP)) ∧
        maxWDeviation ((commitIter acc step n)^[k] (st, tp)).1.coeffA
          ((commitIter acc step n)^[k] (st, tp)).1.coeffB (acc origTP) ≤ tolerance ∧
        st' = ((commitIter acc step n)^[k + 1] (st, tp)).1 ∧
        st'.planeEpoch = ((commitIter acc step n)^[k] (st, tp)).1.planeEpoch + 1 ∧
        d = maxWDeviation st'.coeffA st'.coeffB (acc origTP) := by
  intro fuel
  induction fuel with
  | zero =>
    intro st tp st' d h
    simp [commitLoop] at h
  | succ fuel ih =>
    intro st tp st' d h
    simp only [commitLoop] at h
    by_cases hsing : |lsfDet (lsfSumsRange (acc (shiftLongitude tp (-step))) n)| < detTol
    · rw [if_pos hsing] at h
      simp at h
    · rw [if_neg hsing] at h
      by_cases hgt : maxWDeviation st.coeffA st.coeffB (acc origTP) > tolerance
      · rw [if_pos hgt] at h
        obtain ⟨k, hfail, hok, hst, hep, hd⟩ := ih _ _ _ _ h
        refine ⟨k + 1, ?_, ?_, ?_, ?_, hd⟩
        · intro j hj
          cases j with
          | zero =>
            rw [Function.iterate_zero_apply]
            exact hgt
          | succ j' =>
            rw [Function.iterate_succ_apply]
            exact hfail j' (by omega)
        · rw [Function.iterate_succ_apply]
          exact hok
        · rw [Function.iterate_succ_apply]
          exact hst
        · rw [Function.iterate_succ_apply]
          exact hep
      · rw [if_neg hgt] at h
        obtain ⟨h1, hrest⟩ := Prod.mk.inj (Option.some.inj h)
        obtain ⟨h2, _⟩ := Prod.mk.inj hrest
        subst h1
        subst h2
        refine ⟨0, fun j hj => absurd hj (Nat.not_lt_zero j), ?_, ?_, ?_, rfl⟩
        · rw [Function.iterate_zero_apply]
          exact not_lt.mp hgt
        · rw [Function.iterate_succ_apply, Function.iterate_zero_apply]
          rfl
        · rw [Function.iterate_zero_apply]

/-- Witness for the amended C6, read off the counterexample run: the commit
loop of the `accC6` scenario, entered at state (0, 0, epoch 0) and advanced
tangent point longitude 1, exits normally at the commit iterates of that
entry state, with final coefficients (0, 50) committed right after the
validation of the previously committed plane succeeded. -/
theorem commitLoop_validates_previous_commit_witness :
    ∃ k : ℕ,
      (∀ j, j < k →
        (10 : ℚ) < maxWDeviation
          ((commitIter accC6 1 2)^[j] (⟨0, 0, 0⟩, ⟨1, 0⟩)).1.coeffA
          ((commitIter accC6 1 2)^[j] (⟨0, 0, 0⟩, ⟨1, 0⟩)).1.coeffB (accC6 ⟨0, 0⟩)) ∧
      maxWDeviation ((commitIter accC6 1 2)^[k] (⟨0, 0, 0⟩, ⟨1, 0⟩)).1.coeffA
        ((commitIter accC6 1 2)^[k] (⟨0, 0, 0⟩, ⟨1, 0⟩)).1.coeffB (accC6 ⟨0, 0⟩) ≤ 10 ∧
      (⟨0, 50, 2⟩ : PlaneFitState) =
        ((commitIter accC6 1 2)^[k + 1] (⟨0, 0, 0⟩, ⟨1, 0⟩)).1 ∧
      (⟨0, 50, 2⟩ : PlaneFitState).planeEpoch =
        ((commitIter accC6 1 2)^[k] (⟨0, 0, 0⟩, ⟨1, 0⟩)).1.planeEpoch + 1 ∧
      (100 : ℚ) = maxWDeviation 0 50 (accC6 ⟨0, 0⟩) :=
  commitLoop_validates_previous_commit accC6 ⟨0, 0⟩ 10 1 2 10 ⟨0, 0, 0⟩ ⟨1, 0⟩
    ⟨0, 50, 2⟩ 100 (by decide)

/-! ## Deviation consistency lemmas (for C3) -/

/-- The deviation reported by the reactive policy is always the deviation of
the chunk under the coefficients it leaves committed. -/
theorem updatePlaneIfNecessary_dev_eq (st : PlaneFitState) (uvw : List UVW)
    (tolerance : ℚ) :
    (updatePlaneIfNecessary st uvw tolerance).2 =
      maxWDeviation (updatePlaneIfNecessary st uvw tolerance).1.coeffA
        (updatePlaneIfNecessary st uvw tolerance).1.coeffB uvw := by
  simp only [updatePlaneIfNecessary]
  split
  · rfl
  · split
    · rfl
    · rfl

/-- Any result of the commit loop reports the deviation of the original
tangent point's chunk under the coefficients it leaves committed. -/
theorem commitLoop_dev_eq (acc : TangentPoint → List UVW) (origTP : TangentPoint)
    (tolerance step : ℚ) (n : ℕ) :
    ∀ (fuel : ℕ) (st : PlaneFitState) (tp : TangentPoint) (st' : PlaneFitState)
      (d : ℚ) (k : ExitKind),
      commitLoop acc origTP tolerance step n fuel st tp = some (st', d, k) →
      d = maxWDeviation st'.coeffA st'.coeffB (acc origTP) := by
  intro fuel
  induction fuel with
  | zero =>
    intro st tp st' d k h
    simp [commitLoop] at h
  | succ fuel ih =>
    intro st tp st' d k h
    simp only [commitLoop] at h
    by_cases hsing : |lsfDet (lsfSumsRange (acc (shiftLongitude tp (-step))) n)| < detTol
    · rw [if_pos hsing] at h
      obtain ⟨h1, hrest⟩ := Prod.mk.inj (Option.some.inj h)
      obtain ⟨h2, _⟩ := Prod.mk.inj hrest
      subst h1
      subst h2
      rfl
    · rw [if_neg hsing] at h
      by_cases hgt : maxWDeviation st.coeffA st.coeffB (acc origTP) > tolerance
      · rw [if_pos hgt] at h
        exact ih _ _ _ _ _ h
      · rw [if_neg hgt] at h
        obtain ⟨h1, hrest⟩ := Prod.mk.inj (Option.some.inj h)
        obtain ⟨h2, _⟩ := Prod.mk.inj hrest
        subst h1
        subst h2
        rfl

/-- For any result of the predictive policy, the reported deviation is below
the tolerance exactly when the deviation of the current chunk under the
coefficients it leaves committed is (the hard-violation path reports the
uncommitted temporary fit's deviation, but then both sides exceed the
tolerance). -/
theorem updateAdvancedTime_dev_iff (acc : TangentPoint → List UVW)
    (radPerSec interval : ℚ) (fuel : ℕ) (st : PlaneFitState) (tolerance : ℚ)
    (tp : TangentPoint) (st' : PlaneFitState) (d : ℚ) (k : ExitKind)
    (h : updateAdvancedTimePlaneIfNecessary acc radPerSec interval fuel st tolerance tp
      = some (st', d, k)) :
    (d < tolerance ↔ maxWDeviation st'.coeffA st'.coeffB (acc tp) < tolerance) := by
  simp only [updateAdvancedTimePlaneIfNecessary] at h
  by_cases h0 : maxWDeviation st.coeffA st.coeffB (acc tp) < tolerance
  · rw [if_pos h0] at h
    obtain ⟨h1, hrest⟩ := Prod.mk.inj (Option.some.inj h)
    obtain ⟨h2, _⟩ := Prod.mk.inj hrest
    subst h1
    subst h2
    exact Iff.rfl
  · rw [if_neg h0] at h
    by_cases hsing : |lsfDet (lsfSums (acc tp))| < detTol
    · rw [if_pos hsing] at h
      obtain ⟨h1, hrest⟩ := Prod.mk.inj (Option.some.inj h)
      obtain ⟨h2, _⟩ := Prod.mk.inj hrest
      subst h1
      subst h2
      exact Iff.rfl
    · rw [if_neg hsing] at h
      by_cases hhard : maxWDeviation (lsfCoeffA (lsfSums (acc tp)))
          (lsfCoeffB (lsfSums (acc tp))) (acc tp) > tolerance
      · rw [if_pos hhard] at h
        obtain ⟨h1, hrest⟩ := Prod.mk.inj (Option.some.inj h)
        obtain ⟨h2, _⟩ := Prod.mk.inj hrest
        subst h1
        subst h2
        exact iff_of_false (not_lt.mpr (le_of_lt hhard)) h0
      · rw [if_neg hhard] at h
        cases hadv : advanceLoop acc (lsfCoeffA (lsfSums (acc tp)))
            (lsfCoeffB (lsfSums (acc tp))) tolerance (interval * radPerSec)
            (acc tp).length fuel
            (maxWDeviation (lsfCoeffA (lsfSums (acc tp)))
              (lsfCoeffB (lsfSums (acc tp))) (acc tp)) tp with
        | none =>
          rw [hadv] at h
          simp at h
        | some tpOut =>
          rw [hadv] at h
          rw [commitLoop_dev_eq acc tp tolerance (interval * radPerSec)
            (acc tp).length fuel st tpOut st' d k h]

/-- The deviation reported by either policy is below the tolerance exactly
when the chunk's deviation under the coefficients left committed is. -/
theorem runPolicy_dev_iff (env : Env) (fuel : ℕ) (plane : PlaneFitState)
    (predictWPlane : Bool) (predictTimeInterval : ℚ) (tp : TangentPoint)
    (tolM : ℚ) (plane' : PlaneFitState) (d : ℚ)
    (h : runPolicy env fuel plane predictWPlane predictTimeInterval tp tolM =
      some (plane', d)) :
    (d < tolM ↔ maxWDeviation plane'.coeffA plane'.coeffB (env.acc tp) < tolM) := by
  simp only [runPolicy] at h
  by_cases hp : predictWPlane = false
  · rw [if_pos hp] at h
    have hpair := Option.some.inj h
    have h1 : (updatePlaneIfNecessary plane (env.acc tp) tolM).1 = plane' := by
      rw [hpair]
    have h2 : (updatePlaneIfNecessary plane (env.acc tp) tolM).2 = d := by
      rw [hpair]
    rw [← h1, ← h2, updatePlaneIfNecessary_dev_eq]
  · rw [if_neg hp] at h
    rw [Option.map_eq_some'] at h
    obtain ⟨⟨st', d', k⟩, hsome, heq⟩ := h
    obtain ⟨h1, h2⟩ := Prod.mk.inj heq
    subst h1
    subst h2
    exact updateAdvancedTime_dev_iff env.acc env.radPerSec predictTimeInterval fuel
      plane tolM tp st' d' k hsome

/-! ## C3: the residual check fails exactly when the achieved deviation
reaches the tolerance -/

/-- Claim C3: on a call that runs a refit policy (the source geometry
changed, non-empty frequency list) with `checkResidual` enabled, the call
fails with the tolerance-exceeded error exactly when the achieved deviation —
the chunk's deviation under the coefficients the policy committed — is not
strictly below the tolerance in metres; and under identical inputs with
`checkResidual` disabled the call returns normally, with the same committed
coefficients and the corrected coordinates built from them. -/
theorem checkResidual_iff_toleranceExceeded (env : Env) (fuel : ℕ)
    (st : AccessorState) (tp : TangentPoint) (plane' : PlaneFitState) (d : ℚ)
    (hck : st.checkResidual = true)
    (hsrc : ¬ env.sourceEpoch = st.lastSourceEpoch)
    (hfreq : ¬ env.freq.length < 1)
    (hrp : runPolicy env fuel st.plane st.predictWPlane st.predictTimeInterval tp
      (tolInMetres st.wTolerance env.freq) = some (plane', d)) :
    ((rotatedUVW env fuel st tp = Except.error AccessorError.toleranceExceeded ↔
        ¬ maxWDeviation plane'.coeffA plane'.coeffB (env.acc tp) <
          tolInMetres st.wTolerance env.freq) ∧
      ∃ out : List UVW,
        rotatedUVW env fuel { st with checkResidual := false } tp =
          Except.ok
            ({ st with
                checkResidual := false
                plane := plane'
                lastTangentPoint := tp
                itsRotatedUVW := out
                lastSourceEpoch := env.sourceEpoch }, out) ∧
        out = (env.acc tp).map
          (fun r => ⟨r.u, r.v, r.w - (plane'.coeffA * r.u + plane'.coeffB * r.v)⟩)) := by
  have hdev := runPolicy_dev_iff env fuel st.plane st.predictWPlane
    st.predictTimeInterval tp (tolInMetres st.wTolerance env.freq) plane' d hrp
  constructor
  · simp only [rotatedUVW]
    rw [if_neg hsrc, if_neg hfreq]
    simp only [hrp]
    by_cases hd : d < tolInMetres st.wTolerance env.freq
    · rw [if_neg (by simp [hd])]
      refine iff_of_false (by simp) ?_
      rw [not_not]
      exact hdev.mp hd
    · rw [if_pos ⟨hck, hd⟩]
      exact iff_of_true rfl (fun hc => hd (hdev.mpr hc))
  · refine ⟨(env.acc tp).map
      (fun r => ⟨r.u, r.v, r.w - (plane'.coeffA * r.u + plane'.coeffB * r.v)⟩), ?_, rfl⟩
    simp only [rotatedUVW]
    rw [if_neg hsrc, if_neg hfreq]
    simp only [hrp]
    rw [if_neg (by simp)]

/-- Witness for C3: a colinear chunk whose deviation 4 exceeds the 2-metre
tolerance makes the checking call fail and the non-checking call succeed. -/
theorem checkResidual_iff_toleranceExceeded_witness :
    ((rotatedUVW ⟨(fun _ => [⟨1, 0, 4⟩, ⟨2, 0, 0⟩]), [299792458], 1, 1⟩ 0
          ⟨true, 2, ⟨0, 0, 0⟩, 0, ⟨0, 0⟩, [], false, 1⟩ ⟨0, 0⟩ =
        Except.error AccessorError.toleranceExceeded ↔
        ¬ maxWDeviation (0 : ℚ) 0 [⟨1, 0, 4⟩, ⟨2, 0, 0⟩] <
          tolInMetres 2 [299792458]) ∧
      ∃ out : List UVW,
        rotatedUVW ⟨(fun _ => [⟨1, 0, 4⟩, ⟨2, 0, 0⟩]), [299792458], 1, 1⟩ 0
            ⟨false, 2, ⟨0, 0, 0⟩, 0, ⟨0, 0⟩, [], false, 1⟩ ⟨0, 0⟩ =
          Except.ok (⟨false, 2, ⟨0, 0, 0⟩, 1, ⟨0, 0⟩, out, false, 1⟩, out) ∧
        out = ([⟨1, 0, 4⟩, ⟨2, 0, 0⟩] : List UVW).map
          (fun r => ⟨r.u, r.v, r.w - ((0 : ℚ) * r.u + (0 : ℚ) * r.v)⟩)) :=
  checkResidual_iff_toleranceExceeded
    ⟨(fun _ => [⟨1, 0, 4⟩, ⟨2, 0, 0⟩]), [299792458], 1, 1⟩ 0
    ⟨true, 2, ⟨0, 0, 0⟩, 0, ⟨0, 0⟩, [], false, 1⟩ ⟨0, 0⟩ ⟨0, 0, 0⟩ 4
    rfl (by decide) (by decide) (by decide)

/-! ## C4: shape of the corrected coordinates -/

/-- Claim C4: on a call that rebuilds the cache (the source geometry
changed), the returned corrected sequence has exactly one triple per chunk
row, each being `(u, v, w - coeffA*u - coeffB*v)` under the coefficients
committed by the call: u and v pass through unchanged and only w is shifted
by the fitted plane. -/
theorem rotatedUVW_subtracts_plane (env : Env) (fuel : ℕ) (st : AccessorState)
    (tp : TangentPoint) (st₁ : AccessorState) (out : List UVW)
    (hsrc : ¬ env.sourceEpoch = st.lastSourceEpoch)
    (h : rotatedUVW env fuel st tp = Except.ok (st₁, out)) :
    out = (env.acc tp).map
        (fun r => ⟨r.u, r.v, r.w - st₁.plane.coeffA * r.u - st₁.plane.coeffB * r.v⟩) ∧
      out.length = (env.acc tp).length := by
  simp only [rotatedUVW] at h
  rw [if_neg hsrc] at h
  by_cases hfreq : env.freq.length < 1
  · rw [if_pos hfreq] at h
    exact absurd h (by simp)
  · rw [if_neg hfreq] at h
    cases hrp : runPolicy env fuel st.plane st.predictWPlane st.predictTimeInterval
        tp (tolInMetres st.wTolerance env.freq) with
    | none =>
      rw [hrp] at h
      exact absurd h (by simp)
    | some pr =>
      obtain ⟨plane', d⟩ := pr
      simp only [hrp] at h
      by_cases hchk : st.checkResidual = true ∧ ¬ d < tolInMetres st.wTolerance env.freq
      · rw [if_pos hchk] at h
        exact absurd h (by simp)
      · rw [if_neg hchk] at h
        obtain ⟨h1, h2⟩ := Prod.mk.inj (Except.ok.inj h)
        subst h1
        subst h2
        constructor
        · refine List.map_congr_left (fun r _ => ?_)
          have : r.w - (plane'.coeffA * r.u + plane'.coeffB * r.v)
              = r.w - plane'.coeffA * r.u - plane'.coeffB * r.v := by ring
          rw [this]
        · exact List.length_map _ _

/-- Witness for C4 on a two-row chunk with a previously committed plane
w = 2u. -/
theorem rotatedUVW_subtracts_plane_witness :
    ([⟨1, 2, 8⟩, ⟨3, 4, 14⟩] : List UVW) = ([⟨1, 2, 10⟩, ⟨3, 4, 20⟩] : List UVW).map
        (fun r => ⟨r.u, r.v, r.w - 2 * r.u - 0 * r.v⟩) ∧
      ([⟨1, 2, 8⟩, ⟨3, 4, 14⟩] : List UVW).length =
        ([⟨1, 2, 10⟩, ⟨3, 4, 20⟩] : List UVW).length := by
  have happ := rotatedUVW_subtracts_plane
    ⟨(fun _ => [⟨1, 2, 10⟩, ⟨3, 4, 20⟩]), [1], 1, 1⟩ 0
    ⟨false, 1, ⟨2, 0, 0⟩, 0, ⟨0, 0⟩, [], false, 1⟩ ⟨0, 0⟩
    ⟨false, 1, ⟨2, 0, 0⟩, 1, ⟨0, 0⟩, [⟨1, 2, 8⟩, ⟨3, 4, 14⟩], false, 1⟩
    [⟨1, 2, 8⟩, ⟨3, 4, 14⟩] (by decide) (by decide)
  exact happ

/-! ## C10: all tolerance comparisons are strict -/

/-- Claim C10: a deviation exactly equal to the tolerance is treated as
exceeding it at all three comparison sites: (reactive) the no-fit test
`maxDeviation < tolerance` fails at equality, so a fit is attempted and — for
a non-singular chunk — committed, advancing the plane epoch; (predictive)
the early-return test at equality does not return the current deviation but
proceeds to the fit, observable when the fresh fit's own deviation exceeds
the tolerance, which is then reported instead; (residual check) a policy
deviation exactly equal to the tolerance in metres fails
`maxDeviation < tolInMetres` and raises the tolerance-exceeded error. -/
theorem strict_tolerance_comparisons :
    (∀ (st : PlaneFitState) (uvw : List UVW) (tolerance : ℚ),
      2 ≤ uvw.length →
      maxWDeviation st.coeffA st.coeffB uvw = tolerance →
      ¬ |lsfDet (lsfSums uvw)| < detTol →
      (updatePlaneIfNecessary st uvw tolerance).1.planeEpoch = st.planeEpoch + 1) ∧
    (∀ (acc : TangentPoint → List UVW) (radPerSec interval : ℚ) (fuel : ℕ)
      (st : PlaneFitState) (tolerance : ℚ) (tp : TangentPoint),
      maxWDeviation st.coeffA st.coeffB (acc tp) = tolerance →
      ¬ |lsfDet (lsfSums (acc tp))| < detTol →
      maxWDeviation (lsfCoeffA (lsfSums (acc tp))) (lsfCoeffB (lsfSums (acc tp)))
        (acc tp) > tolerance →
      updateAdvancedTimePlaneIfNecessary acc radPerSec interval fuel st tolerance tp =
        some (st,
          maxWDeviation (lsfCoeffA (lsfSums (acc tp))) (lsfCoeffB (lsfSums (acc tp)))
            (acc tp),
          ExitKind.hardViolation)) ∧
    (∀ (env : Env) (fuel : ℕ) (st : AccessorState) (tp : TangentPoint)
      (plane' : PlaneFitState),
      st.checkResidual = true →
      ¬ env.sourceEpoch = st.lastSourceEpoch →
      ¬ env.freq.length < 1 →
      runPolicy env fuel st.plane st.predictWPlane st.predictTimeInterval tp
          (tolInMetres st.wTolerance env.freq) =
        some (plane', tolInMetres st.wTolerance env.freq) →
      rotatedUVW env fuel st tp = Except.error AccessorError.toleranceExceeded) := by
  refine ⟨?_, ?_, ?_⟩
  · intro st uvw tolerance hlen heq hsing
    simp only [updatePlaneIfNecessary]
    rw [if_neg (by push_neg; exact ⟨hlen, by rw [heq]⟩), if_neg hsing]
  · intro acc radPerSec interval fuel st tolerance tp heq hsing hhard
    simp only [updateAdvancedTimePlaneIfNecessary]
    rw [if_neg (by rw [heq]; exact lt_irrefl tolerance), if_neg hsing, if_pos hhard]
  · intro env fuel st tp plane' hck hsrc hfreq hrp
    simp only [rotatedUVW]
    rw [if_neg hsrc, if_neg hfreq]
    simp only [hrp]
    rw [if_pos ⟨hck, not_lt.mpr (le_refl _)⟩]

/-- Witness for C10 at all three sites: deviation exactly equal to the
tolerance commits a reactive fit (epoch 5 to 6), takes the predictive
hard-violation path instead of the early return, and fails the residual
check. -/
theorem strict_tolerance_comparisons_witness :
    ((updatePlaneIfNecessary ⟨0, 0, 5⟩ [⟨1, 0, 1⟩, ⟨0, 1, 1⟩] 1).1.planeEpoch = 6) ∧
    (updateAdvancedTimePlaneIfNecessary acc10 1 1 5 ⟨3, 3, 0⟩ 3 ⟨0, 0⟩ =
      some (⟨3, 3, 0⟩,
        maxWDeviation (lsfCoeffA (lsfSums (acc10 ⟨0, 0⟩)))
          (lsfCoeffB (lsfSums (acc10 ⟨0, 0⟩))) (acc10 ⟨0, 0⟩),
        ExitKind.hardViolation)) ∧
    (rotatedUVW ⟨(fun _ => [⟨1, 0, 3⟩, ⟨2, 0, 0⟩]), [299792458], 1, 1⟩ 0
        ⟨true, 3, ⟨0, 0, 0⟩, 0, ⟨0, 0⟩, [], false, 1⟩ ⟨0, 0⟩ =
      Except.error AccessorError.toleranceExceeded) := by
  refine ⟨?_, ?_, ?_⟩
  · exact strict_tolerance_comparisons.1 ⟨0, 0, 5⟩ [⟨1, 0, 1⟩, ⟨0, 1, 1⟩] 1
      (by decide) (by decide) (by decide)
  · exact strict_tolerance_comparisons.2.1 acc10 1 1 5 ⟨3, 3, 0⟩ 3 ⟨0, 0⟩
      (by decide) (by decide) (by decide)
  · exact strict_tolerance_comparisons.2.2
      ⟨(fun _ => [⟨1, 0, 3⟩, ⟨2, 0, 0⟩]), [299792458], 1, 1⟩ 0
      ⟨true, 3, ⟨0, 0, 0⟩, 0, ⟨0, 0⟩, [], false, 1⟩ ⟨0, 0⟩ ⟨0, 0, 0⟩
      rfl (by decide) (by decide) (by decide)

/-- Witness for C9: a successful first call followed by an identical second
call. -/
theorem rotatedUVW_idempotent_witness :
    rotatedUVW ⟨(fun _ => [⟨2, 0, 6⟩, ⟨0, 1, 0⟩]), [2], 9, 1⟩ 0
        ⟨false, 1, ⟨3, 0, 0⟩, 9, ⟨0, 0⟩, [⟨2, 0, 0⟩, ⟨0, 1, 0⟩], false, 1⟩ ⟨0, 0⟩ =
      Except.ok
        (⟨false, 1, ⟨3, 0, 0⟩, 9, ⟨0, 0⟩, [⟨2, 0, 0⟩, ⟨0, 1, 0⟩], false, 1⟩,
          [⟨2, 0, 0⟩, ⟨0, 1, 0⟩]) :=
  rotatedUVW_idempotent ⟨(fun _ => [⟨2, 0, 6⟩, ⟨0, 1, 0⟩]), [2], 9, 1⟩ 0
    ⟨false, 1, ⟨3, 0, 0⟩, 9, ⟨0, 0⟩, [⟨2, 0, 0⟩, ⟨0, 1, 0⟩], false, 1⟩ ⟨0, 0⟩
    ⟨false, 1, ⟨3, 0, 0⟩, 9, ⟨0, 0⟩, [⟨2, 0, 0⟩, ⟨0, 1, 0⟩], false, 1⟩
    [⟨2, 0, 0⟩, ⟨0, 1, 0⟩] (by decide)
